import Mathlib

/-!
# Verification of the PrefetchQueue (Movie-Game)

Shallow embedding of the background prefetch buffer `PrefetchQueue`
(`src/unnamed/part_007`).  The queue pre-loads movie data in the background:
it maintains a FIFO buffer of `MovieResult` items, deduplicates by
`movie_id`, bounds the number of concurrent Supplier calls, and retries with
exponential backoff.

Modelling choices (single-threaded cooperative concurrency, as in the JS
event loop):

* A `fillOne` invocation is a *task*.  The synchronous prefix of `fillOne`
  (creating the `AbortController`, adding it to `inFlight`, the first loop
  check and the first Supplier call) runs atomically when `fill` spawns it,
  so a freshly spawned task is suspended on its first Supplier call with
  `attempt = 1`.
* `fill()` is atomic: its `tick` body contains no `await`, so the whole
  spawn loop runs synchronously (hence the `filling` flag can never observe
  a concurrent fill and the re-schedule branch in `finally` is unreachable:
  the loop only exits when its own condition — identical to the `finally`
  condition — is false).
* Supplier outcomes (a novel candidate, an already-seen candidate, `null`,
  or an error/rejection) are delivered nondeterministically to a task
  suspended on its Supplier call.  An aborted task's call rejects, so an
  aborted task can only settle with an error.
* Machine integers are modelled as `Nat`; the configuration (`size`,
  `concurrency`) is fixed for an execution (no `setConfig` call), matching
  the claims, which quantify over `fill` / `next` / `setFilters` / `cancel`
  and Supplier events.
-/

/-- Payload returned by the Supplier (`getRandomMovieWithTrailer`).  The
queue only ever inspects `movie_id`; the remaining fields of the source's
`MovieResult` are opaque to it and omitted. -/
structure MovieResult where
  movie_id : Nat
deriving DecidableEq, Repr

/-- `PrefetchStats`: the five monotonically accumulating counters. -/
structure PrefetchStats where
  queued : Nat
  servedImmediate : Nat
  servedAfterWait : Nat
  timeouts : Nat
  inFlightMax : Nat
deriving DecidableEq, Repr

/-- `PrefetchFilters`: optional year range and language
(`startYear?`, `endYear?`, `language?`). -/
structure PrefetchFilters where
  startYear : Option Nat := none
  endYear : Option Nat := none
  language : Option String := none
deriving DecidableEq, Repr

/-- Where a `fillOne` task is suspended. -/
inductive Phase where
  /-- at the top of the retry loop, about to evaluate
  `attempt < maxAttempts && queue.length < size` -/
  | checking
  /-- suspended on the Supplier call (`await getRandomMovieWithTrailer`) -/
  | awaiting
  /-- suspended in the backoff delay -/
  | backingOff
  /-- the invocation finished: its `finally` block has run -/
  | settled
deriving DecidableEq, Repr

/-- One `fillOne` invocation.  `inSet` records whether its
`AbortController` is a member of the `inFlight` set; `aborted` whether
`abort()` was called on it; `pushes` is a ghost counter of the items this
invocation pushed into the queue. -/
structure TaskT where
  attempt : Nat
  phase : Phase
  inSet : Bool
  aborted : Bool
  pushes : Nat
deriving DecidableEq, Repr

/-- The state of a `PrefetchQueue` instance.  `queue` is the FIFO buffer
(front = next served), `seenIds` the dedup set, `tasks` the `fillOne`
invocations launched so far (never removed from this list; a finished one
is `settled`). -/
structure QState where
  size : Nat
  concurrency : Nat
  queue : List MovieResult
  seenIds : List Nat
  tasks : List TaskT
  stats : PrefetchStats
  filters : PrefetchFilters
deriving DecidableEq, Repr

/-- `this.inFlight.size`: controllers currently in the in-flight set. -/
def inFlightCount (st : QState) : Nat :=
  st.tasks.countP (fun t => t.inSet)

/-- The state built by the constructor
(`new PrefetchQueue({size, concurrency})`):
`concurrency = Math.max(1, c)`, everything else empty / zero. -/
def initState (size concurrency : Nat) : QState :=
  { size := size
    concurrency := max 1 concurrency
    queue := []
    seenIds := []
    tasks := []
    stats := ⟨0, 0, 0, 0, 0⟩
    filters := {} }

/-- A task freshly spawned by `fill`: the synchronous prefix of `fillOne`
has added its controller to `inFlight`, passed the first loop check and
issued the first Supplier call (`attempt = 1`). -/
def spawnedTask : TaskT :=
  { attempt := 1, phase := .awaiting, inSet := true, aborted := false, pushes := 0 }

/-- Guard of the spawn loop in `fill`:
`queue.length < size && inFlight.size < concurrency`. -/
def canSpawn (st : QState) : Bool :=
  st.queue.length < st.size && inFlightCount st < st.concurrency

/-- One iteration of the spawn loop in `fill`: `void this.fillOne()`
followed by `stats.inFlightMax = max(stats.inFlightMax, inFlight.size)`. -/
def fillSpawn (st : QState) : QState :=
  { st with
    tasks := st.tasks ++ [spawnedTask]
    stats := { st.stats with
               inFlightMax := max st.stats.inFlightMax (inFlightCount st + 1) } }

/-- The spawn loop of `fill`, fuelled.  Each iteration grows
`inFlight.size` by one, so `concurrency` units of fuel always outlast the
guard `inFlight.size < concurrency`. -/
def fillLoop : Nat → QState → QState
  | 0, st => st
  | fuel + 1, st => if canSpawn st then fillLoop fuel (fillSpawn st) else st

/-- `fill()`: spawns `fillOne` tasks while the buffer is under capacity and
the concurrency ceiling is not reached.  Atomic (see module docstring). -/
def fillStep (st : QState) : QState :=
  fillLoop st.concurrency st

/-- Replace task `i` (the task list itself never changes length). -/
def updTask (st : QState) (i : Nat) (t : TaskT) : QState :=
  { st with tasks := st.tasks.set i t }

/-- Loop re-entry in `fillOne`: the check
`attempt < maxAttempts && queue.length < size` succeeded, `attempt++`, and
the Supplier is called. -/
def applyEnter (st : QState) (i : Nat) (t : TaskT) : QState :=
  updTask st i { t with attempt := t.attempt + 1, phase := .awaiting }

/-- Loop exit in `fillOne`: the check failed; the `finally` block removes
the controller from `inFlight`. -/
def applySettle (st : QState) (i : Nat) (t : TaskT) : QState :=
  updTask st i { t with phase := .settled, inSet := false }

/-- The Supplier returned a falsy candidate: enter the backoff delay. -/
def applyNone (st : QState) (i : Nat) (t : TaskT) : QState :=
  updTask st i { t with phase := .backingOff }

/-- The Supplier returned an already-seen candidate: `continue` (no
backoff), back to the loop check. -/
def applyDup (st : QState) (i : Nat) (t : TaskT) : QState :=
  updTask st i { t with phase := .checking }

/-- The Supplier returned a novel candidate: `seenIds.add`, `queue.push`,
`stats.queued++`, `break`, and the `finally` block runs. -/
def applyNovel (st : QState) (i : Nat) (t : TaskT) (id : Nat) : QState :=
  let st1 := updTask st i
    { t with phase := .settled, inSet := false, pushes := t.pushes + 1 }
  { st1 with
    queue := st1.queue ++ [⟨id⟩]
    seenIds := id :: st1.seenIds
    stats := { st1.stats with queued := st1.stats.queued + 1 } }

/-- The backoff delay elapsed: back to the loop check. -/
def applyBackoffEnd (st : QState) (i : Nat) (t : TaskT) : QState :=
  updTask st i { t with phase := .checking }

/-- The pop branch of `next()`: `queue.shift()`, bump the served counter
(`servedImmediate` when the queue was non-empty on entry, `servedAfterWait`
when the item arrived during the wait loop), then `fill()`. -/
def applyPop (st : QState) (immediate : Bool) (rest : List MovieResult) : QState :=
  fillStep
    { st with
      queue := rest
      stats := if immediate then
                 { st.stats with servedImmediate := st.stats.servedImmediate + 1 }
               else
                 { st.stats with servedAfterWait := st.stats.servedAfterWait + 1 } }

/-- The timeout tail of `next()`: `stats.timeouts++` (and `null` is
returned to the caller). -/
def applyTimeout (st : QState) : QState :=
  { st with stats := { st.stats with timeouts := st.stats.timeouts + 1 } }

/-- `cancel(clearQueue)`: aborts every controller in `inFlight`, clears
`inFlight`, and empties the queue when `clearQueue` is true. -/
def cancelFn (clearQueue : Bool) (st : QState) : QState :=
  { st with
    tasks := st.tasks.map (fun t =>
      if t.inSet then { t with inSet := false, aborted := true } else t)
    queue := if clearQueue then [] else st.queue }

/-- The structural comparison at the top of `setFilters`:
`startYear === startYear && endYear === endYear && language === language`. -/
def sameFilters (a b : PrefetchFilters) : Bool :=
  a.startYear == b.startYear && a.endYear == b.endYear && a.language == b.language

/-- `setFilters(filters)`: no-op when structurally equal; otherwise replace
the filters, clear `seenIds`, `cancel(true)`, and `fill()`. -/
def setFiltersFn (filters : PrefetchFilters) (st : QState) : QState :=
  if sameFilters st.filters filters then st
  else fillStep (cancelFn true { st with filters := filters, seenIds := [] })

/-- The wait loop of `next(timeoutMs)` when the buffer starts empty and no
concurrent event interleaves (in particular, nothing is pushed): each
iteration checks `elapsed < timeoutMs`, then the queue, then sleeps 50 ms.
`elapsed` is the idealised clock (real elapsed time is at least it, since
`setTimeout(r, 50)` never fires early).  Returns the result, the state and
the clock value at return.  The fuel `timeoutMs / 50 + 1` outlasts the
`elapsed < timeoutMs` guard, so the `0` case is unreachable with the guard
still true (see `nextWaitAux_empty`). -/
def nextWaitAux (st : QState) (timeoutMs : Nat) :
    Nat → Nat → Option MovieResult × QState × Nat
  | 0, elapsed => (none, applyTimeout st, elapsed)
  | fuel + 1, elapsed =>
    if elapsed < timeoutMs then
      match st.queue with
      | item :: rest => (some item, applyPop st false rest, elapsed)
      | [] => nextWaitAux st timeoutMs fuel (elapsed + 50)
    else (none, applyTimeout st, elapsed)

/-- `next(timeoutMs)` under the assumption that no concurrent event
interleaves with the call: pop immediately when the buffer is non-empty,
otherwise `fill()` and poll.  Returns `(result, state, clock at return)`. -/
def nextFn (st : QState) (timeoutMs : Nat) : Option MovieResult × QState × Nat :=
  match st.queue with
  | item :: rest => (some item, applyPop st true rest, 0)
  | [] => nextWaitAux (fillStep st) timeoutMs (timeoutMs / 50 + 1) 0

/-- The backoff delay (`backoff(attempt)`):
`min(1500, 120 * 1.6 ** attempt + jitter)` where
`jitter = Math.floor(Math.random() * 80)` is an integer in `[0, 80)`.
The IEEE doubles of the source are modelled as exact rationals
(`1.6 = 8/5`). -/
def backoffDelay (attempt : Nat) (jitter : Nat) : ℚ :=
  min 1500 (120 * (8 / 5 : ℚ) ^ attempt + jitter)

/-- Transition labels: `pushL id` marks the push of a candidate with
identifier `id` into the queue, `setFiltersL f` an effective filter change
(the start of a new filter epoch); everything else is `tau`. -/
inductive Label where
  | tau
  | pushL (id : Nat)
  | setFiltersL (f : PrefetchFilters)
deriving DecidableEq, Repr

/-- The ids pushed along a list of labels. -/
def pushedIds (ls : List Label) : List Nat :=
  ls.filterMap (fun l => match l with | .pushL id => some id | _ => none)

/-- Small-step semantics of one `PrefetchQueue` instance: interleaving of
the consumer-facing operations (each atomic between `await` points) and
the scheduler events resuming suspended `fillOne` tasks. -/
inductive Step : QState → Label → QState → Prop where
  /-- a `fill()` call (from `next`, `setFilters`, or directly) -/
  | fillCall (st : QState) :
      Step st .tau (fillStep st)
  /-- task `i` at the loop check: `attempt < 6 && queue.length < size`
  holds, so the attempt counter is bumped and the Supplier is called -/
  | loopEnter (st : QState) (i : Nat) (t : TaskT)
      (hget : st.tasks[i]? = some t) (hph : t.phase = .checking)
      (ha : t.attempt < 6) (hq : st.queue.length < st.size) :
      Step st .tau (applyEnter st i t)
  /-- task `i` at the loop check: the condition fails, the loop exits and
  the `finally` block removes the controller from `inFlight` -/
  | loopExit (st : QState) (i : Nat) (t : TaskT)
      (hget : st.tasks[i]? = some t) (hph : t.phase = .checking)
      (hc : ¬(t.attempt < 6 ∧ st.queue.length < st.size)) :
      Step st .tau (applySettle st i t)
  /-- the Supplier resolves task `i`'s call with a falsy candidate -/
  | supplierNone (st : QState) (i : Nat) (t : TaskT)
      (hget : st.tasks[i]? = some t) (hph : t.phase = .awaiting)
      (hab : t.aborted = false) :
      Step st .tau (applyNone st i t)
  /-- the Supplier resolves task `i`'s call with an already-seen candidate -/
  | supplierDup (st : QState) (i : Nat) (t : TaskT) (id : Nat)
      (hget : st.tasks[i]? = some t) (hph : t.phase = .awaiting)
      (hab : t.aborted = false) (hseen : id ∈ st.seenIds) :
      Step st .tau (applyDup st i t)
  /-- the Supplier resolves task `i`'s call with a novel candidate: it is
  recorded in `seenIds`, pushed, counted, and the loop breaks -/
  | supplierNovel (st : QState) (i : Nat) (t : TaskT) (id : Nat)
      (hget : st.tasks[i]? = some t) (hph : t.phase = .awaiting)
      (hab : t.aborted = false) (hseen : id ∉ st.seenIds) :
      Step st (.pushL id) (applyNovel st i t id)
  /-- task `i`'s Supplier call rejects (transport error, or the abort of
  its controller): the `catch` swallows it and the `finally` block runs -/
  | supplierErr (st : QState) (i : Nat) (t : TaskT)
      (hget : st.tasks[i]? = some t) (hph : t.phase = .awaiting) :
      Step st .tau (applySettle st i t)
  /-- task `i`'s backoff delay elapses -/
  | backoffEnd (st : QState) (i : Nat) (t : TaskT)
      (hget : st.tasks[i]? = some t) (hph : t.phase = .backingOff) :
      Step st .tau (applyBackoffEnd st i t)
  /-- a `next()` call (or an iteration of its wait loop) finds the buffer
  non-empty: pop, bump the served counter, `fill()` -/
  | popServe (st : QState) (immediate : Bool) (item : MovieResult)
      (rest : List MovieResult) (hq : st.queue = item :: rest) :
      Step st .tau (applyPop st immediate rest)
  /-- a waiting `next()` call reaches its deadline: `stats.timeouts++` -/
  | waitTimeout (st : QState) :
      Step st .tau (applyTimeout st)
  /-- a `cancel(clearQueue)` call -/
  | cancelCall (st : QState) (clearQueue : Bool) :
      Step st .tau (cancelFn clearQueue st)
  /-- `setFilters` with a structurally equal value: no-op -/
  | filtersSame (st : QState) (f : PrefetchFilters)
      (h : sameFilters st.filters f = true) :
      Step st .tau (setFiltersFn f st)
  /-- `setFilters` with a structurally different value: starts a new
  filter epoch -/
  | filtersChange (st : QState) (f : PrefetchFilters)
      (h : sameFilters st.filters f = false) :
      Step st (.setFiltersL f) (setFiltersFn f st)

/-- Some step with some label. -/
def StepAny (a b : QState) : Prop := ∃ l, Step a l b

/-- Reachability in the step semantics. -/
def Reached : QState → QState → Prop := Relation.ReflTransGen StepAny

/-- A labelled execution fragment. -/
inductive Trace : QState → List Label → QState → Prop where
  | nil (st : QState) : Trace st [] st
  | cons {st st' st'' : QState} {l : Label} {ls : List Label}
      (h : Step st l st') (h' : Trace st' ls st'') : Trace st (l :: ls) st''

/-- "At rest": every launched `fillOne` invocation has finished and
nothing is in flight (a fill cycle, once it cannot launch more attempts,
terminates without rescheduling — see module docstring). -/
def atRest (st : QState) : Bool :=
  st.tasks.all (fun t => t.phase == .settled) && inFlightCount st == 0

/-- A task suspended on a live (non-aborted) Supplier call: one that may
still push without re-checking the capacity guard. -/
def isAwaitingLive (t : TaskT) : Bool :=
  (match t.phase with | .awaiting => true | _ => false) && !t.aborted

/-- Number of live pending Supplier calls. -/
def awaitingCount (st : QState) : Nat :=
  st.tasks.countP isAwaitingLive

/-- The inductive invariant of the step semantics:
1. the in-flight set is bounded by the concurrency ceiling;
2. a live (non-aborted, unfinished) task's controller is in `inFlight`;
3. a finished task's controller is not in `inFlight`;
4. the buffer can overshoot the capacity only by the pending live
   Supplier calls (each entered past a `queue.length < size` check);
5. per-task bounds: at most 6 Supplier calls, at most one push, and a
   task that has pushed is finished. -/
def SysInv (st : QState) : Prop :=
  inFlightCount st ≤ st.concurrency ∧
  (∀ t ∈ st.tasks, t.aborted = false → t.phase ≠ .settled → t.inSet = true) ∧
  (∀ t ∈ st.tasks, t.phase = .settled → t.inSet = false) ∧
  st.queue.length + awaitingCount st + 1 ≤ st.size + st.concurrency ∧
  (∀ t ∈ st.tasks, t.attempt ≤ 6 ∧ t.pushes ≤ 1 ∧ (1 ≤ t.pushes → t.phase = .settled))

/-- A concrete configured instance with one queued item and its id in the
dedup set (as after one served-and-refilled round with `size = 1`). -/
def c1State : QState :=
  { initState 1 2 with queue := [⟨5⟩], seenIds := [5] }

/-- A filter value structurally different from `c1State.filters` (which is
empty). -/
def c1NewFilters : PrefetchFilters :=
  { startYear := some 2000 }

/-- Start of the capacity counterexample: a fresh instance with
`size = 1`, `concurrency = 2`. -/
def c2s0 : QState := initState 1 2

/-- After one `fill()` call: two `fillOne` tasks in flight. -/
def c2s1 : QState := fillStep c2s0

/-- The first task's Supplier call resolves with novel id 10. -/
def c2s2 : QState := applyNovel c2s1 0 spawnedTask 10

/-- The second task's Supplier call resolves with novel id 20 — pushed
without re-checking the capacity, overshooting `size = 1`. -/
def c2s3 : QState := applyNovel c2s2 1 spawnedTask 20

/-- The single retrying `fillOne` task of the all-duplicates run, at
attempt `a`, suspended at `p`. -/
def c9Task (a : Nat) (p : Phase) : TaskT :=
  { attempt := a, phase := p, inSet := true, aborted := false, pushes := 0 }

/-- Start of the all-duplicates run: a fresh `size = 3`, `concurrency = 1`
instance whose dedup set contains id 7, after one `fill()` call (one task
suspended on its first Supplier call). -/
def c9s0 : QState := fillStep { initState 3 1 with seenIds := [7] }

/-- The all-duplicates run: the Supplier answers all six calls with the
already-seen id 7; after the sixth duplicate the loop check fails
(`attempt < 6` is false) and the task settles with nothing queued. -/
def c9sF : QState :=
  applySettle
    (applyDup
      (applyEnter
        (applyDup
          (applyEnter
            (applyDup
              (applyEnter
                (applyDup
                  (applyEnter
                    (applyDup
                      (applyEnter
                        (applyDup c9s0 0 (c9Task 1 .awaiting))
                        0 (c9Task 1 .checking))
                      0 (c9Task 2 .awaiting))
                    0 (c9Task 2 .checking))
                  0 (c9Task 3 .awaiting))
                0 (c9Task 3 .checking))
              0 (c9Task 4 .awaiting))
            0 (c9Task 4 .checking))
          0 (c9Task 5 .awaiting))
        0 (c9Task 5 .checking))
      0 (c9Task 6 .awaiting))
    0 (c9Task 6 .checking)

/-- A concrete state with one pending Supplier call, one queued item and a
non-empty dedup set, used to instantiate the frame theorems. -/
def wState : QState :=
  { initState 2 1 with tasks := [spawnedTask], seenIds := [3], queue := [⟨3⟩] }

/-- A concrete full buffer: three items queued in push order 1, 2, 3. -/
def c6State : QState :=
  { initState 3 2 with queue := [⟨1⟩, ⟨2⟩, ⟨3⟩], seenIds := [3, 2, 1] }

section Lemmas

theorem countP_set_of_get {α : Type} {l : List α} {i : Nat} {a : α} (p : α → Bool)
    (h : l[i]? = some a) (b : α) :
    (l.set i b).countP p + (if p a then 1 else 0)
      = l.countP p + (if p b then 1 else 0) := by
  induction l generalizing i with
  | nil => simp at h
  | cons x xs ih =>
    cases i with
    | zero =>
      simp only [List.getElem?_cons_zero, Option.some_inj] at h
      subst h
      simp only [List.set_cons_zero, List.countP_cons]
      omega
    | succ j =>
      simp only [List.getElem?_cons_succ] at h
      have hrec := ih h
      simp only [List.set_cons_succ, List.countP_cons]
      omega

theorem isAwaitingLive_iff (t : TaskT) :
    isAwaitingLive t = true ↔ t.phase = .awaiting ∧ t.aborted = false := by
  cases hp : t.phase <;> cases hb : t.aborted <;> simp [isAwaitingLive, hp, hb]

@[simp] theorem updTask_queue (st : QState) (i : Nat) (t : TaskT) :
    (updTask st i t).queue = st.queue := rfl

@[simp] theorem updTask_seenIds (st : QState) (i : Nat) (t : TaskT) :
    (updTask st i t).seenIds = st.seenIds := rfl

@[simp] theorem updTask_size (st : QState) (i : Nat) (t : TaskT) :
    (updTask st i t).size = st.size := rfl

@[simp] theorem updTask_concurrency (st : QState) (i : Nat) (t : TaskT) :
    (updTask st i t).concurrency = st.concurrency := rfl

@[simp] theorem updTask_filters (st : QState) (i : Nat) (t : TaskT) :
    (updTask st i t).filters = st.filters := rfl

@[simp] theorem updTask_tasks (st : QState) (i : Nat) (t : TaskT) :
    (updTask st i t).tasks = st.tasks.set i t := rfl

theorem inFlightCount_updTask {st : QState} {i : Nat} {t : TaskT} (t' : TaskT)
    (hget : st.tasks[i]? = some t) :
    inFlightCount (updTask st i t') + (if t.inSet then 1 else 0)
      = inFlightCount st + (if t'.inSet then 1 else 0) := by
  simpa [inFlightCount, updTask] using countP_set_of_get (fun x => x.inSet) hget t'

theorem awaitingCount_updTask {st : QState} {i : Nat} {t : TaskT} (t' : TaskT)
    (hget : st.tasks[i]? = some t) :
    awaitingCount (updTask st i t') + (if isAwaitingLive t then 1 else 0)
      = awaitingCount st + (if isAwaitingLive t' then 1 else 0) := by
  simpa [awaitingCount, updTask] using countP_set_of_get isAwaitingLive hget t'

theorem mem_updTask {st : QState} {i : Nat} {t' x : TaskT}
    (h : x ∈ (updTask st i t').tasks) : x = t' ∨ x ∈ st.tasks := by
  rcases List.mem_or_eq_of_mem_set h with h | h
  · exact Or.inr h
  · exact Or.inl h

theorem awaitingCount_le_inFlightCount (st : QState)
    (h2 : ∀ t ∈ st.tasks, t.aborted = false → t.phase ≠ .settled → t.inSet = true) :
    awaitingCount st ≤ inFlightCount st := by
  refine List.countP_mono_left fun t ht hp => ?_
  rcases (isAwaitingLive_iff t).mp hp with ⟨hph, hab⟩
  exact h2 t ht hab (by simp [hph])

@[simp] theorem fillSpawn_queue (st : QState) : (fillSpawn st).queue = st.queue := rfl

@[simp] theorem fillSpawn_seenIds (st : QState) : (fillSpawn st).seenIds = st.seenIds := rfl

@[simp] theorem fillSpawn_size (st : QState) : (fillSpawn st).size = st.size := rfl

@[simp] theorem fillSpawn_concurrency (st : QState) :
    (fillSpawn st).concurrency = st.concurrency := rfl

@[simp] theorem fillSpawn_filters (st : QState) : (fillSpawn st).filters = st.filters := rfl

theorem fillSpawn_tasks (st : QState) :
    (fillSpawn st).tasks = st.tasks ++ [spawnedTask] := rfl

theorem fillLoop_queue (n : Nat) (st : QState) : (fillLoop n st).queue = st.queue := by
  induction n generalizing st with
  | zero => rfl
  | succ n ih =>
    unfold fillLoop
    split
    · rw [ih, fillSpawn_queue]
    · rfl

theorem fillLoop_seenIds (n : Nat) (st : QState) : (fillLoop n st).seenIds = st.seenIds := by
  induction n generalizing st with
  | zero => rfl
  | succ n ih =>
    unfold fillLoop
    split
    · rw [ih, fillSpawn_seenIds]
    · rfl

theorem fillLoop_size (n : Nat) (st : QState) : (fillLoop n st).size = st.size := by
  induction n generalizing st with
  | zero => rfl
  | succ n ih =>
    unfold fillLoop
    split
    · rw [ih, fillSpawn_size]
    · rfl

theorem fillLoop_concurrency (n : Nat) (st : QState) :
    (fillLoop n st).concurrency = st.concurrency := by
  induction n generalizing st with
  | zero => rfl
  | succ n ih =>
    unfold fillLoop
    split
    · rw [ih, fillSpawn_concurrency]
    · rfl

theorem fillLoop_filters (n : Nat) (st : QState) : (fillLoop n st).filters = st.filters := by
  induction n generalizing st with
  | zero => rfl
  | succ n ih =>
    unfold fillLoop
    split
    · rw [ih, fillSpawn_filters]
    · rfl

theorem fillLoop_tasks_shape (n : Nat) (st : QState) :
    ∃ k, (fillLoop n st).tasks = st.tasks ++ List.replicate k spawnedTask := by
  induction n generalizing st with
  | zero => exact ⟨0, by simp [fillLoop]⟩
  | succ n ih =>
    unfold fillLoop
    split
    · rcases ih (fillSpawn st) with ⟨k, hk⟩
      refine ⟨k + 1, ?_⟩
      rw [hk, fillSpawn_tasks, List.append_assoc]
      simp [List.replicate_succ]
    · exact ⟨0, by simp⟩

theorem fillStep_queue (st : QState) : (fillStep st).queue = st.queue :=
  fillLoop_queue _ _

theorem fillStep_seenIds (st : QState) : (fillStep st).seenIds = st.seenIds :=
  fillLoop_seenIds _ _

theorem fillStep_tasks_shape (st : QState) :
    ∃ k, (fillStep st).tasks = st.tasks ++ List.replicate k spawnedTask :=
  fillLoop_tasks_shape _ _

theorem fillSpawn_inv {st : QState} (hc : canSpawn st = true) (h : SysInv st) :
    SysInv (fillSpawn st) := by
  obtain ⟨h1, h2, h3, h4, h5⟩ := h
  simp only [canSpawn, Bool.and_eq_true, decide_eq_true_eq] at hc
  obtain ⟨hq, hf⟩ := hc
  have hifc : inFlightCount (fillSpawn st) = inFlightCount st + 1 := by
    simp [inFlightCount, fillSpawn, List.countP_append, spawnedTask]
  have hac : awaitingCount (fillSpawn st) = awaitingCount st + 1 := by
    simp [awaitingCount, fillSpawn, List.countP_append, isAwaitingLive, spawnedTask]
  have hA : awaitingCount st ≤ inFlightCount st := awaitingCount_le_inFlightCount st h2
  refine ⟨by rw [hifc, fillSpawn_concurrency]; omega, ?_, ?_, ?_, ?_⟩
  · intro t ht hab hph
    rw [fillSpawn_tasks] at ht
    rcases List.mem_append.mp ht with ht | ht
    · exact h2 t ht hab hph
    · simp only [List.mem_singleton] at ht
      subst ht; rfl
  · intro t ht hph
    rw [fillSpawn_tasks] at ht
    rcases List.mem_append.mp ht with ht | ht
    · exact h3 t ht hph
    · simp only [List.mem_singleton] at ht
      subst ht
      simp [spawnedTask] at hph
  · rw [fillSpawn_queue, fillSpawn_size, fillSpawn_concurrency, hac]
    omega
  · intro t ht
    rw [fillSpawn_tasks] at ht
    rcases List.mem_append.mp ht with ht | ht
    · exact h5 t ht
    · simp only [List.mem_singleton] at ht
      subst ht
      refine ⟨by simp [spawnedTask], by simp [spawnedTask], ?_⟩
      intro hp
      simp [spawnedTask] at hp

theorem fillLoop_inv (n : Nat) {st : QState} (h : SysInv st) : SysInv (fillLoop n st) := by
  induction n generalizing st with
  | zero => exact h
  | succ n ih =>
    unfold fillLoop
    split
    · exact ih (fillSpawn_inv (by assumption) h)
    · exact h

theorem cancelFn_inv (b : Bool) {st : QState} (h : SysInv st) : SysInv (cancelFn b st) := by
  obtain ⟨h1, h2, h3, h4, h5⟩ := h
  have htasks : (cancelFn b st).tasks
      = st.tasks.map (fun t =>
          if t.inSet then { t with inSet := false, aborted := true } else t) := rfl
  have hmem : ∀ x ∈ (cancelFn b st).tasks, x.inSet = false := by
    intro x hx
    rw [htasks] at hx
    rcases List.mem_map.mp hx with ⟨t, ht, hxt⟩
    cases hs : t.inSet
    · simp [hs] at hxt
      rw [← hxt, hs]
    · simp [hs] at hxt
      rw [← hxt]
  have hifc : inFlightCount (cancelFn b st) = 0 := by
    rw [inFlightCount, List.countP_eq_zero]
    intro x hx
    simp [hmem x hx]
  have hac : awaitingCount (cancelFn b st) = 0 := by
    rw [awaitingCount, List.countP_eq_zero]
    intro x hx
    rw [htasks] at hx
    rcases List.mem_map.mp hx with ⟨t, ht, hxt⟩
    intro hlive
    rcases (isAwaitingLive_iff x).mp hlive with ⟨hph, hab⟩
    cases hs : t.inSet <;> simp [hs] at hxt
    · rw [← hxt] at hab hph
      have := h2 t ht hab (by simp [hph])
      rw [hs] at this
      exact absurd this (by simp)
    · rw [← hxt] at hab
      simp at hab
  have hql : (cancelFn b st).queue.length ≤ st.queue.length := by
    show (if b then ([] : List MovieResult) else st.queue).length ≤ st.queue.length
    cases b <;> simp
  refine ⟨by omega, ?_, ?_, ?_, ?_⟩
  · intro x hx hab hph
    rw [htasks] at hx
    rcases List.mem_map.mp hx with ⟨t, ht, hxt⟩
    cases hs : t.inSet <;> simp [hs] at hxt
    · rw [← hxt] at hab hph
      have := h2 t ht hab hph
      rw [hs] at this
      exact absurd this (by simp)
    · rw [← hxt] at hab
      simp at hab
  · intro x hx _
    exact hmem x hx
  · have : (cancelFn b st).size = st.size := rfl
    have hcc : (cancelFn b st).concurrency = st.concurrency := rfl
    rw [this, hcc, hac]
    omega
  · intro x hx
    rw [htasks] at hx
    rcases List.mem_map.mp hx with ⟨t, ht, hxt⟩
    have h5t := h5 t ht
    cases hs : t.inSet <;> simp [hs] at hxt <;> rw [← hxt] <;> simpa using h5t

theorem sysInv_updTask_of_le {st : QState} {i : Nat} {t : TaskT} (t' : TaskT)
    (hget : st.tasks[i]? = some t) (hin : SysInv st)
    (hI5 : t'.attempt ≤ 6 ∧ t'.pushes ≤ 1 ∧ (1 ≤ t'.pushes → t'.phase = .settled))
    (hI2 : t'.aborted = false → t'.phase ≠ .settled → t'.inSet = true)
    (hI3 : t'.phase = .settled → t'.inSet = false)
    (hfl : (if t'.inSet then 1 else 0) ≤ (if t.inSet then 1 else 0))
    (haw : (if isAwaitingLive t' then 1 else 0) ≤ (if isAwaitingLive t then 1 else 0)) :
    SysInv (updTask st i t') := by
  obtain ⟨h1, h2, h3, h4, h5⟩ := hin
  have hifc := inFlightCount_updTask (t := t) t' hget
  have hac := awaitingCount_updTask (t := t) t' hget
  refine ⟨?_, ?_, ?_, ?_, ?_⟩
  · rw [updTask_concurrency]
    omega
  · intro x hx hab hph
    rcases mem_updTask hx with rfl | hx
    · exact hI2 hab hph
    · exact h2 x hx hab hph
  · intro x hx hph
    rcases mem_updTask hx with rfl | hx
    · exact hI3 hph
    · exact h3 x hx hph
  · rw [updTask_queue, updTask_size, updTask_concurrency]
    omega
  · intro x hx
    rcases mem_updTask hx with rfl | hx
    · exact hI5
    · exact h5 x hx

theorem sysInv_init (size concurrency : Nat) : SysInv (initState size concurrency) := by
  have h1 : inFlightCount (initState size concurrency) = 0 := rfl
  have h2 : awaitingCount (initState size concurrency) = 0 := rfl
  refine ⟨?_, ?_, ?_, ?_, ?_⟩
  · rw [h1]; exact Nat.zero_le _
  · intro t ht; simp [initState] at ht
  · intro t ht; simp [initState] at ht
  · show 0 + awaitingCount (initState size concurrency) + 1 ≤ size + max 1 concurrency
    rw [h2]
    have := Nat.le_max_left 1 concurrency
    omega
  · intro t ht; simp [initState] at ht

theorem step_inv {st st' : QState} {l : Label} (h : Step st l st') (hin : SysInv st) :
    SysInv st' := by
  obtain ⟨h1, h2, h3, h4, h5⟩ := hin
  cases h with
  | fillCall =>
    exact fillLoop_inv _ ⟨h1, h2, h3, h4, h5⟩
  | loopEnter i t hget hph ha hq =>
    have htm : t ∈ st.tasks := List.getElem?_mem hget
    have hifc : inFlightCount (applyEnter st i t) + (if t.inSet then 1 else 0)
        = inFlightCount st + (if t.inSet then 1 else 0) :=
      inFlightCount_updTask _ hget
    have hI2 : ∀ x ∈ (applyEnter st i t).tasks,
        x.aborted = false → x.phase ≠ .settled → x.inSet = true := by
      intro x hx hab hph'
      have hx' : x ∈ (updTask st i
        { t with attempt := t.attempt + 1, phase := .awaiting }).tasks := hx
      rcases mem_updTask hx' with rfl | hxm
      · exact h2 t htm hab (by rw [hph]; simp)
      · exact h2 x hxm hab hph'
    have hA : awaitingCount (applyEnter st i t) ≤ inFlightCount (applyEnter st i t) :=
      awaitingCount_le_inFlightCount _ hI2
    refine ⟨?_, hI2, ?_, ?_, ?_⟩
    · show inFlightCount (applyEnter st i t) ≤ st.concurrency
      omega
    · intro x hx hph'
      have hx' : x ∈ (updTask st i
        { t with attempt := t.attempt + 1, phase := .awaiting }).tasks := hx
      rcases mem_updTask hx' with rfl | hxm
      · simp at hph'
      · exact h3 x hxm hph'
    · show st.queue.length + awaitingCount (applyEnter st i t) + 1
        ≤ st.size + st.concurrency
      omega
    · intro x hx
      have hx' : x ∈ (updTask st i
        { t with attempt := t.attempt + 1, phase := .awaiting }).tasks := hx
      rcases mem_updTask hx' with rfl | hxm
      · have h5t := h5 t htm
        refine ⟨?_, ?_, ?_⟩
        · show t.attempt + 1 ≤ 6
          omega
        · show t.pushes ≤ 1
          exact h5t.2.1
        · intro hp
          have hp' : 1 ≤ t.pushes := hp
          have hcon := h5t.2.2 hp'
          rw [hph] at hcon
          exact absurd hcon (by simp)
      · exact h5 x hxm
  | loopExit i t hget hph hc =>
    have h5t := h5 t (List.getElem?_mem hget)
    refine sysInv_updTask_of_le _ hget ⟨h1, h2, h3, h4, h5⟩
      ⟨h5t.1, h5t.2.1, fun _ => rfl⟩
      (fun _ hne => absurd rfl hne)
      (fun _ => rfl) (by simp) (by simp [isAwaitingLive])
  | supplierNone i t hget hph hab =>
    have htm : t ∈ st.tasks := List.getElem?_mem hget
    have h5t := h5 t htm
    refine sysInv_updTask_of_le _ hget ⟨h1, h2, h3, h4, h5⟩
      ⟨h5t.1, h5t.2.1, ?_⟩ ?_ ?_ (by simp) (by simp [isAwaitingLive])
    · intro hp
      have := h5t.2.2 hp
      rw [hph] at this
      exact absurd this (by simp)
    · intro hab' _
      exact h2 t htm hab' (by rw [hph]; simp)
    · intro hph'
      simp at hph'
  | supplierDup i t id hget hph hab hseen =>
    have htm : t ∈ st.tasks := List.getElem?_mem hget
    have h5t := h5 t htm
    refine sysInv_updTask_of_le _ hget ⟨h1, h2, h3, h4, h5⟩
      ⟨h5t.1, h5t.2.1, ?_⟩ ?_ ?_ (by simp) (by simp [isAwaitingLive])
    · intro hp
      have := h5t.2.2 hp
      rw [hph] at this
      exact absurd this (by simp)
    · intro hab' _
      exact h2 t htm hab' (by rw [hph]; simp)
    · intro hph'
      simp at hph'
  | supplierNovel i t id hget hph hab hseen =>
    have htm : t ∈ st.tasks := List.getElem?_mem hget
    have h5t := h5 t htm
    have htin : t.inSet = true := h2 t htm hab (by rw [hph]; simp)
    have htlive : isAwaitingLive t = true := (isAwaitingLive_iff t).mpr ⟨hph, hab⟩
    have htp0 : t.pushes = 0 := by
      rcases Nat.eq_zero_or_pos t.pushes with hz | hpos
      · exact hz
      · have hcon := h5t.2.2 hpos
        rw [hph] at hcon
        exact absurd hcon (by simp)
    have hifc2 : inFlightCount (applyNovel st i t id) + 1 = inFlightCount st := by
      have hh := inFlightCount_updTask (t := t)
        { t with phase := .settled, inSet := false, pushes := t.pushes + 1 } hget
      rw [htin] at hh
      simpa using hh
    have hac2 : awaitingCount (applyNovel st i t id) + 1 = awaitingCount st := by
      have hh := awaitingCount_updTask (t := t)
        { t with phase := .settled, inSet := false, pushes := t.pushes + 1 } hget
      rw [htlive] at hh
      have hlf : isAwaitingLive
          { t with phase := .settled, inSet := false, pushes := t.pushes + 1 } = false := rfl
      rw [hlf] at hh
      simpa using hh
    refine ⟨?_, ?_, ?_, ?_, ?_⟩
    · show inFlightCount (applyNovel st i t id) ≤ st.concurrency
      omega
    · intro x hx hab' hph'
      have hx' : x ∈ (updTask st i
        { t with phase := .settled, inSet := false, pushes := t.pushes + 1 }).tasks := hx
      rcases mem_updTask hx' with rfl | hxm
      · exact absurd rfl hph'
      · exact h2 x hxm hab' hph'
    · intro x hx hph'
      have hx' : x ∈ (updTask st i
        { t with phase := .settled, inSet := false, pushes := t.pushes + 1 }).tasks := hx
      rcases mem_updTask hx' with rfl | hxm
      · rfl
      · exact h3 x hxm hph'
    · show (st.queue ++ [MovieResult.mk id]).length + awaitingCount (applyNovel st i t id) + 1
        ≤ st.size + st.concurrency
      rw [List.length_append]
      simp only [List.length_singleton]
      omega
    · intro x hx
      have hx' : x ∈ (updTask st i
        { t with phase := .settled, inSet := false, pushes := t.pushes + 1 }).tasks := hx
      rcases mem_updTask hx' with rfl | hxm
      · refine ⟨h5t.1, ?_, fun _ => rfl⟩
        show t.pushes + 1 ≤ 1
        omega
      · exact h5 x hxm
  | supplierErr i t hget hph =>
    have h5t := h5 t (List.getElem?_mem hget)
    refine sysInv_updTask_of_le _ hget ⟨h1, h2, h3, h4, h5⟩
      ⟨h5t.1, h5t.2.1, fun _ => rfl⟩
      (fun _ hne => absurd rfl hne)
      (fun _ => rfl) (by simp) (by simp [isAwaitingLive])
  | backoffEnd i t hget hph =>
    have htm : t ∈ st.tasks := List.getElem?_mem hget
    have h5t := h5 t htm
    refine sysInv_updTask_of_le _ hget ⟨h1, h2, h3, h4, h5⟩
      ⟨h5t.1, h5t.2.1, ?_⟩ ?_ ?_ (by simp) (by simp [isAwaitingLive])
    · intro hp
      have := h5t.2.2 hp
      rw [hph] at this
      exact absurd this (by simp)
    · intro hab' _
      exact h2 t htm hab' (by rw [hph]; simp)
    · intro hph'
      simp at hph'
  | popServe immediate item rest hq =>
    refine fillLoop_inv _ ⟨h1, h2, h3, ?_, h5⟩
    show rest.length + awaitingCount st + 1 ≤ st.size + st.concurrency
    rw [hq] at h4
    simp only [List.length_cons] at h4
    omega
  | waitTimeout =>
    exact ⟨h1, h2, h3, h4, h5⟩
  | cancelCall b =>
    exact cancelFn_inv b ⟨h1, h2, h3, h4, h5⟩
  | filtersSame f hsame =>
    simpa [setFiltersFn, hsame] using And.intro h1 ⟨h2, h3, h4, h5⟩
  | filtersChange f hdiff =>
    show SysInv (setFiltersFn f st)
    rw [setFiltersFn, if_neg (by simp [hdiff])]
    exact fillLoop_inv _ (cancelFn_inv true ⟨h1, h2, h3, h4, h5⟩)

theorem reached_inv {s c : Nat} {st : QState}
    (h : Reached (initState s c) st) : SysInv st := by
  induction h with
  | refl => exact sysInv_init s c
  | tail _ hstep ih =>
    rcases hstep with ⟨l, hstep⟩
    exact step_inv hstep ih

theorem step_concurrency {st st' : QState} {l : Label} (h : Step st l st') :
    st'.concurrency = st.concurrency := by
  cases h with
  | fillCall => exact fillLoop_concurrency _ _
  | loopEnter i t hget hph ha hq => rfl
  | loopExit i t hget hph hc => rfl
  | supplierNone i t hget hph hab => rfl
  | supplierDup i t id hget hph hab hseen => rfl
  | supplierNovel i t id hget hph hab hseen => rfl
  | supplierErr i t hget hph => rfl
  | backoffEnd i t hget hph => rfl
  | popServe immediate item rest hq => exact fillLoop_concurrency _ _
  | waitTimeout => rfl
  | cancelCall b => rfl
  | filtersSame f hsame => simp [setFiltersFn, hsame]
  | filtersChange f hdiff =>
    rw [setFiltersFn, if_neg (by simp [hdiff])]
    exact fillLoop_concurrency _ _

theorem step_size {st st' : QState} {l : Label} (h : Step st l st') :
    st'.size = st.size := by
  cases h with
  | fillCall => exact fillLoop_size _ _
  | loopEnter i t hget hph ha hq => rfl
  | loopExit i t hget hph hc => rfl
  | supplierNone i t hget hph hab => rfl
  | supplierDup i t id hget hph hab hseen => rfl
  | supplierNovel i t id hget hph hab hseen => rfl
  | supplierErr i t hget hph => rfl
  | backoffEnd i t hget hph => rfl
  | popServe immediate item rest hq => exact fillLoop_size _ _
  | waitTimeout => rfl
  | cancelCall b => rfl
  | filtersSame f hsame => simp [setFiltersFn, hsame]
  | filtersChange f hdiff =>
    rw [setFiltersFn, if_neg (by simp [hdiff])]
    exact fillLoop_size _ _

theorem reached_concurrency {s c : Nat} {st : QState}
    (h : Reached (initState s c) st) : st.concurrency = max 1 c := by
  induction h with
  | refl => rfl
  | tail _ hstep ih =>
    rcases hstep with ⟨l, hstep⟩
    rw [step_concurrency hstep]
    exact ih

theorem step_seen_mono {st st' : QState} {l : Label} (h : Step st l st')
    (hl : ∀ f, l ≠ Label.setFiltersL f) {id : Nat} (hid : id ∈ st.seenIds) :
    id ∈ st'.seenIds := by
  cases h with
  | fillCall =>
    show id ∈ (fillLoop st.concurrency st).seenIds
    rw [fillLoop_seenIds]
    exact hid
  | loopEnter i t hget hph ha hq => exact hid
  | loopExit i t hget hph hc => exact hid
  | supplierNone i t hget hph hab => exact hid
  | supplierDup i t idc hget hph hab hseen => exact hid
  | supplierNovel i t idc hget hph hab hseen =>
    exact List.mem_cons_of_mem _ hid
  | supplierErr i t hget hph => exact hid
  | backoffEnd i t hget hph => exact hid
  | popServe immediate item rest hq =>
    show id ∈ (fillLoop _ _).seenIds
    rw [fillLoop_seenIds]
    exact hid
  | waitTimeout => exact hid
  | cancelCall b => exact hid
  | filtersSame f hsame =>
    rw [setFiltersFn, if_pos (by simp [hsame])]
    exact hid
  | filtersChange f hdiff => exact absurd rfl (hl f)

theorem step_push {st st' : QState} {id : Nat} (h : Step st (Label.pushL id) st') :
    id ∉ st.seenIds ∧ id ∈ st'.seenIds := by
  cases h with
  | supplierNovel i t idc hget hph hab hseen =>
    exact ⟨hseen, List.mem_cons_self _ _⟩

theorem trace_seen_not_pushed {st st' : QState} {ls : List Label}
    (h : Trace st ls st') :
    (∀ f, Label.setFiltersL f ∉ ls) → ∀ id ∈ st.seenIds, id ∉ pushedIds ls := by
  induction h with
  | nil =>
    intro _ id _ hmem
    simp [pushedIds] at hmem
  | @cons s1 s2 s3 l ls hstep htr ih =>
    intro hl id hid hmem
    have hl' : ∀ f, Label.setFiltersL f ∉ ls :=
      fun f hf => hl f (List.mem_cons_of_mem _ hf)
    have hlne : ∀ f, l ≠ Label.setFiltersL f :=
      fun f he => hl f (he ▸ List.mem_cons_self _ _)
    have hid' : id ∈ s2.seenIds := step_seen_mono hstep hlne hid
    cases l with
    | pushL idp =>
      have hp := step_push hstep
      rw [show pushedIds (Label.pushL idp :: ls) = idp :: pushedIds ls from rfl] at hmem
      rcases List.mem_cons.mp hmem with rfl | hmem
      · exact hp.1 hid
      · exact ih hl' id hid' hmem
    | tau =>
      exact ih hl' id hid' hmem
    | setFiltersL f =>
      exact hl f (List.mem_cons_self _ _)

theorem fillLoop_stats_frame (n : Nat) (st : QState) :
    (fillLoop n st).stats.queued = st.stats.queued ∧
    (fillLoop n st).stats.servedImmediate = st.stats.servedImmediate ∧
    (fillLoop n st).stats.servedAfterWait = st.stats.servedAfterWait ∧
    (fillLoop n st).stats.timeouts = st.stats.timeouts := by
  induction n generalizing st with
  | zero => exact ⟨rfl, rfl, rfl, rfl⟩
  | succ n ih =>
    unfold fillLoop
    split
    · exact ih (fillSpawn st)
    · exact ⟨rfl, rfl, rfl, rfl⟩

theorem inFlightCount_cancelFn (b : Bool) (st : QState) :
    inFlightCount (cancelFn b st) = 0 := by
  rw [inFlightCount, List.countP_eq_zero]
  intro x hx
  show ¬x.inSet = true
  have htasks : (cancelFn b st).tasks
      = st.tasks.map (fun t =>
          if t.inSet then { t with inSet := false, aborted := true } else t) := rfl
  rw [htasks] at hx
  rcases List.mem_map.mp hx with ⟨t, _, hxt⟩
  cases hs : t.inSet
  · simp [hs] at hxt
    rw [← hxt, hs]
    simp
  · simp [hs] at hxt
    rw [← hxt]
    simp

theorem nextWaitAux_empty (st : QState) (timeoutMs : Nat) (hq : st.queue = [])
    (fuel : Nat) :
    ∀ elapsed, timeoutMs ≤ elapsed + 50 * fuel →
      ∃ e, nextWaitAux st timeoutMs fuel elapsed = (none, applyTimeout st, e)
        ∧ timeoutMs ≤ e := by
  induction fuel with
  | zero =>
    intro elapsed he
    exact ⟨elapsed, rfl, by omega⟩
  | succ n ih =>
    intro elapsed he
    by_cases hlt : elapsed < timeoutMs
    · have heq : nextWaitAux st timeoutMs (n + 1) elapsed
          = nextWaitAux st timeoutMs n (elapsed + 50) := by
        rw [nextWaitAux, if_pos hlt, hq]
      rw [heq]
      exact ih (elapsed + 50) (by omega)
    · have heq : nextWaitAux st timeoutMs (n + 1) elapsed
          = (none, applyTimeout st, elapsed) := by
        rw [nextWaitAux, if_neg hlt]
      exact ⟨elapsed, heq, by omega⟩

theorem nextFn_cons (st : QState) (x : MovieResult) (xs : List MovieResult)
    (timeoutMs : Nat) (h : st.queue = x :: xs) :
    nextFn st timeoutMs = (some x, applyPop st true xs, 0)
      ∧ (applyPop st true xs).queue = xs := by
  constructor
  · rw [nextFn, h]
  · show (fillStep _).queue = xs
    rw [fillStep_queue]

end Lemmas

/-! ## Claim theorems -/

/-- C1 (counterexample): the claim says an effective `setFilters` leaves
the already-queued items unchanged; it does not — `setFilters` invokes
`cancel(true)`, which empties the queue.  At `c1State` (one queued item)
with a structurally different filter value, the queue after the call
differs from the queue before (it is empty). -/
theorem setFilters_keeps_queue_cex :
    sameFilters c1State.filters c1NewFilters = false ∧
    (setFiltersFn c1NewFilters c1State).queue ≠ c1State.queue :=
  ⟨by decide, by decide⟩

/-- C1 (amended): when `setFilters` is called with a structurally
different value, it replaces the filters, clears the SeenSet, cancels all
in-flight Supplier calls, **and also clears the Queue** (it calls
`cancel(true)`), then triggers a fill cycle (whose freshly spawned
attempts are the only tasks beyond the — now cancelled — old ones). -/
theorem setFilters_changed_effects (st : QState) (f : PrefetchFilters)
    (h : sameFilters st.filters f = false) :
    (setFiltersFn f st).filters = f ∧
    (setFiltersFn f st).seenIds = [] ∧
    (setFiltersFn f st).queue = [] ∧
    List.take st.tasks.length (setFiltersFn f st).tasks
      = st.tasks.map (fun t =>
          if t.inSet then { t with inSet := false, aborted := true } else t) ∧
    (∀ t ∈ List.drop st.tasks.length (setFiltersFn f st).tasks, t = spawnedTask) := by
  have hfn : setFiltersFn f st
      = fillStep (cancelFn true { st with filters := f, seenIds := [] }) := by
    rw [setFiltersFn, if_neg (by simp [h])]
  rcases fillStep_tasks_shape (cancelFn true { st with filters := f, seenIds := [] })
    with ⟨k, hk⟩
  have hct : (cancelFn true { st with filters := f, seenIds := [] }).tasks
      = st.tasks.map (fun t =>
          if t.inSet then { t with inSet := false, aborted := true } else t) := rfl
  have hlen : st.tasks.length
      = (st.tasks.map (fun t =>
          if t.inSet then { t with inSet := false, aborted := true } else t)).length :=
    (List.length_map _ _).symm
  refine ⟨?_, ?_, ?_, ?_, ?_⟩
  · rw [hfn]
    show (fillLoop _ _).filters = f
    rw [fillLoop_filters]
    rfl
  · rw [hfn]
    show (fillLoop _ _).seenIds = []
    rw [fillLoop_seenIds]
    rfl
  · rw [hfn]
    show (fillLoop _ _).queue = []
    rw [fillLoop_queue]
    rfl
  · rw [hfn, hk, hct, hlen, List.take_left]
  · rw [hfn, hk, hct, hlen, List.drop_left]
    intro t ht
    exact List.eq_of_mem_replicate ht

/-- C1 (witness for the amended theorem) at `wState` and a changed
filter value. -/
theorem setFilters_changed_effects_witness :
    sameFilters wState.filters c1NewFilters = false ∧
    (setFiltersFn c1NewFilters wState).queue = [] ∧
    (setFiltersFn c1NewFilters wState).seenIds = [] :=
  ⟨by decide,
    (setFilters_changed_effects wState c1NewFilters (by decide)).2.2.1,
    (setFilters_changed_effects wState c1NewFilters (by decide)).2.1⟩

/-- C2 (counterexample): with `size = 1`, `concurrency = 2`, one `fill()`
call launches two attempts; both Supplier calls resolve with novel
candidates and each is pushed without re-checking the capacity.  The
resulting state is at rest (both attempts settled, nothing in flight) with
2 items queued against a configured capacity of 1. -/
theorem capacity_at_rest_cex :
    Reached c2s0 c2s3 ∧ atRest c2s3 = true ∧
    c2s3.size = 1 ∧ c2s3.queue.length = 2 := by
  refine ⟨?_, by decide, by decide, by decide⟩
  have h01 : StepAny c2s0 c2s1 := ⟨.tau, Step.fillCall c2s0⟩
  have h12 : StepAny c2s1 c2s2 :=
    ⟨.pushL 10, Step.supplierNovel c2s1 0 spawnedTask 10 (by decide) rfl rfl (by decide)⟩
  have h23 : StepAny c2s2 c2s3 :=
    ⟨.pushL 20, Step.supplierNovel c2s2 1 spawnedTask 20 (by decide) rfl rfl (by decide)⟩
  exact Relation.ReflTransGen.tail
    (Relation.ReflTransGen.tail (Relation.ReflTransGen.single h01) h12) h23

/-- C2 (amended): in every reachable state — in particular at rest — the
queue length exceeds the configured capacity by at most
`concurrency - 1`: each pushed item passed a `queue.length < size` check
at the start of its last Supplier call, and at most `concurrency` such
calls are pending at once. -/
theorem capacity_at_rest_bound {s c : Nat} {st : QState}
    (h : Reached (initState s c) st) (_hrest : atRest st = true) :
    st.queue.length + 1 ≤ st.size + st.concurrency := by
  have hi := reached_inv h
  have h4 := hi.2.2.2.1
  omega

/-- C2 (witness for the amended theorem): the freshly constructed
instance is at rest and satisfies the bound. -/
theorem capacity_at_rest_bound_witness :
    atRest (initState 1 2) = true ∧
    (initState 1 2).queue.length + 1 ≤ (initState 1 2).size + (initState 1 2).concurrency :=
  ⟨by decide, capacity_at_rest_bound Relation.ReflTransGen.refl (by decide)⟩

/-- C3: within one filter epoch (an execution fragment with no effective
`setFilters` step), the identifiers pushed into the queue are pairwise
distinct — even when the Supplier hands the same identifier to several
concurrent attempts — because a push is guarded by membership in the
SeenSet and immediately records its identifier there, and the SeenSet only
grows during the epoch. -/
theorem dedup_within_epoch {st st' : QState} {ls : List Label}
    (h : Trace st ls st') (hl : ∀ f, Label.setFiltersL f ∉ ls) :
    (pushedIds ls).Nodup := by
  revert hl
  induction h with
  | nil =>
    intro _
    simp [pushedIds]
  | @cons s1 s2 s3 l ls hstep htr ih =>
    intro hl
    have hl' : ∀ f, Label.setFiltersL f ∉ ls :=
      fun f hf => hl f (List.mem_cons_of_mem _ hf)
    cases l with
    | pushL idp =>
      rw [show pushedIds (Label.pushL idp :: ls) = idp :: pushedIds ls from rfl]
      refine List.nodup_cons.mpr ⟨?_, ih hl'⟩
      have hp := step_push hstep
      exact trace_seen_not_pushed htr hl' idp hp.2
    | tau => exact ih hl'
    | setFiltersL f => exact absurd (List.mem_cons_self _ _) (hl f)

/-- C3 (witness): a one-step epoch fragment in which the Supplier resolves
`wState`'s pending attempt with the novel id 7. -/
theorem dedup_within_epoch_witness : (pushedIds [Label.pushL 7]).Nodup :=
  dedup_within_epoch
    (Trace.cons (Step.supplierNovel wState 0 spawnedTask 7 (by decide) rfl rfl (by decide))
      (Trace.nil _))
    (by intro f; simp)

/-- C4: in every reachable state the in-flight set is bounded by the
configured concurrency limit (`max 1 c`, as normalised by the
constructor), no matter how often `fill()` ran; and every settled attempt
has had its cancellation handle removed from the in-flight set. -/
theorem concurrency_ceiling {s c : Nat} {st : QState}
    (h : Reached (initState s c) st) :
    inFlightCount st ≤ st.concurrency ∧
    st.concurrency = max 1 c ∧
    (∀ t ∈ st.tasks, t.phase = .settled → t.inSet = false) := by
  have hi := reached_inv h
  exact ⟨hi.1, reached_concurrency h, hi.2.2.1⟩

/-- C4 (witness) at the freshly constructed `size = 3`, `concurrency = 2`
instance. -/
theorem concurrency_ceiling_witness :
    inFlightCount (initState 3 2) ≤ (initState 3 2).concurrency ∧
    (initState 3 2).concurrency = max 1 2 ∧
    (∀ t ∈ (initState 3 2).tasks, t.phase = .settled → t.inSet = false) :=
  concurrency_ceiling Relation.ReflTransGen.refl

/-- C5: on an empty queue where no item ever becomes available, `next`
returns the explicit none signal (never an error), at a clock value no
earlier than `timeoutMs`; it bumps the timeouts counter by exactly one and
leaves the other served/queued counters alone; and the timeout path
touches no in-flight call: the tasks after the call are exactly the tasks
after the initial `fill()` trigger, with every previously launched attempt
still present (nothing aborted or removed). -/
theorem next_timeout_behavior (st : QState) (timeoutMs : Nat) (h : st.queue = []) :
    (nextFn st timeoutMs).1 = none ∧
    timeoutMs ≤ (nextFn st timeoutMs).2.2 ∧
    (nextFn st timeoutMs).2.1.stats.timeouts = st.stats.timeouts + 1 ∧
    (nextFn st timeoutMs).2.1.tasks = (fillStep st).tasks ∧
    (∀ tk ∈ st.tasks, tk ∈ (nextFn st timeoutMs).2.1.tasks) ∧
    (nextFn st timeoutMs).2.1.stats.servedImmediate = st.stats.servedImmediate ∧
    (nextFn st timeoutMs).2.1.stats.servedAfterWait = st.stats.servedAfterWait ∧
    (nextFn st timeoutMs).2.1.stats.queued = st.stats.queued := by
  have hq1 : (fillStep st).queue = [] := by
    rw [fillStep_queue]
    exact h
  have hfe : nextFn st timeoutMs
      = nextWaitAux (fillStep st) timeoutMs (timeoutMs / 50 + 1) 0 := by
    rw [nextFn, h]
  rcases nextWaitAux_empty (fillStep st) timeoutMs hq1 (timeoutMs / 50 + 1) 0 (by omega)
    with ⟨e, heq, he⟩
  have hst : nextFn st timeoutMs = (none, applyTimeout (fillStep st), e) := by
    rw [hfe, heq]
  rw [hst]
  have hsf := fillLoop_stats_frame st.concurrency st
  refine ⟨rfl, he, ?_, rfl, ?_, ?_, ?_, ?_⟩
  · show (fillLoop st.concurrency st).stats.timeouts + 1 = st.stats.timeouts + 1
    rw [hsf.2.2.2]
  · intro tk htk
    rcases fillStep_tasks_shape st with ⟨k, hk⟩
    show tk ∈ (fillStep st).tasks
    rw [hk]
    exact List.mem_append_left _ htk
  · exact hsf.2.1
  · exact hsf.2.2.1
  · exact hsf.1

/-- C5 (witness) at a fresh empty instance with a 100 ms deadline. -/
theorem next_timeout_behavior_witness :
    (initState 2 1).queue = [] ∧
    (nextFn (initState 2 1) 100).1 = none ∧
    100 ≤ (nextFn (initState 2 1) 100).2.2 ∧
    (nextFn (initState 2 1) 100).2.1.stats.timeouts
      = (initState 2 1).stats.timeouts + 1 :=
  ⟨rfl, (next_timeout_behavior (initState 2 1) 100 rfl).1,
    (next_timeout_behavior (initState 2 1) 100 rfl).2.1,
    (next_timeout_behavior (initState 2 1) 100 rfl).2.2.1⟩

/-- C6: items are served in FIFO order of push time: if the queue holds
A, B, C (in push order), three sequential `next()` calls with no
intervening pushes return A, then B, then C. -/
theorem next_fifo (st : QState) (a b c : MovieResult) (rest : List MovieResult)
    (timeoutMs : Nat) (h : st.queue = a :: b :: c :: rest) :
    (nextFn st timeoutMs).1 = some a ∧
    (nextFn (nextFn st timeoutMs).2.1 timeoutMs).1 = some b ∧
    (nextFn (nextFn (nextFn st timeoutMs).2.1 timeoutMs).2.1 timeoutMs).1 = some c := by
  rcases nextFn_cons st a (b :: c :: rest) timeoutMs h with ⟨h1, hq1⟩
  rcases nextFn_cons (applyPop st true (b :: c :: rest)) b (c :: rest) timeoutMs hq1
    with ⟨h2, hq2⟩
  rcases nextFn_cons (applyPop (applyPop st true (b :: c :: rest)) true (c :: rest)) c
    rest timeoutMs hq2 with ⟨h3, _⟩
  refine ⟨by rw [h1], ?_, ?_⟩
  · rw [h1]
    show (nextFn (applyPop st true (b :: c :: rest)) timeoutMs).1 = some b
    rw [h2]
  · rw [h1]
    show (nextFn (nextFn (applyPop st true (b :: c :: rest)) timeoutMs).2.1 timeoutMs).1
      = some c
    rw [h2]
    show (nextFn (applyPop (applyPop st true (b :: c :: rest)) true (c :: rest)) timeoutMs).1
      = some c
    rw [h3]

/-- C6 (witness): serving the concrete buffer `[1, 2, 3]`. -/
theorem next_fifo_witness :
    c6State.queue = ⟨1⟩ :: ⟨2⟩ :: ⟨3⟩ :: [] ∧
    (nextFn c6State 8000).1 = some ⟨1⟩ ∧
    (nextFn (nextFn c6State 8000).2.1 8000).1 = some ⟨2⟩ ∧
    (nextFn (nextFn (nextFn c6State 8000).2.1 8000).2.1 8000).1 = some ⟨3⟩ :=
  ⟨rfl, (next_fifo c6State ⟨1⟩ ⟨2⟩ ⟨3⟩ [] 8000 rfl).1,
    (next_fifo c6State ⟨1⟩ ⟨2⟩ ⟨3⟩ [] 8000 rfl).2.1,
    (next_fifo c6State ⟨1⟩ ⟨2⟩ ⟨3⟩ [] 8000 rfl).2.2⟩

/-- C7: for attempt `n ≥ 1` and jitter in `[0, 80)`, the backoff delay is
`min(1500, 120 * 1.6^n + jitter)` (floats modelled as exact rationals);
when uncapped it lies in `[120*1.6^n, 120*1.6^n + 80)`; it never exceeds
1500 ms; and across successive attempts the delays are non-decreasing
(regardless of the jitter drawn) until the cap is reached, where they stay
at 1500. -/
theorem backoff_delay_bounds (n j j' : Nat) (hn : 1 ≤ n) (hj : j < 80) (_hj' : j' < 80) :
    backoffDelay n j = min 1500 (120 * (8 / 5 : ℚ) ^ n + j) ∧
    backoffDelay n j ≤ 1500 ∧
    (120 * (8 / 5 : ℚ) ^ n + j ≤ 1500 →
      120 * (8 / 5 : ℚ) ^ n ≤ backoffDelay n j ∧
      backoffDelay n j < 120 * (8 / 5 : ℚ) ^ n + 80) ∧
    backoffDelay n j ≤ backoffDelay (n + 1) j' := by
  have hj80 : (j : ℚ) < 80 := by exact_mod_cast hj
  have hj0 : (0 : ℚ) ≤ (j : ℚ) := by positivity
  have hj'0 : (0 : ℚ) ≤ (j' : ℚ) := by positivity
  have hpow : (8 / 5 : ℚ) ≤ (8 / 5 : ℚ) ^ n := by
    simpa using pow_le_pow_right₀ (by norm_num) hn
  refine ⟨rfl, min_le_left _ _, ?_, ?_⟩
  · intro hle
    rw [backoffDelay, min_eq_right hle]
    constructor
    · linarith
    · linarith
  · refine min_le_min le_rfl ?_
    rw [pow_succ]
    nlinarith [hpow]

/-- C7 (witness) at attempt 1 with jitter 0 for both attempts. -/
theorem backoff_delay_bounds_witness :
    backoffDelay 1 0 = min 1500 (120 * (8 / 5 : ℚ) ^ 1 + 0) ∧
    backoffDelay 1 0 ≤ 1500 ∧
    (120 * (8 / 5 : ℚ) ^ 1 + 0 ≤ 1500 →
      120 * (8 / 5 : ℚ) ^ 1 ≤ backoffDelay 1 0 ∧
      backoffDelay 1 0 < 120 * (8 / 5 : ℚ) ^ 1 + 80) ∧
    backoffDelay 1 0 ≤ backoffDelay (1 + 1) 0 :=
  backoff_delay_bounds 1 0 0 (by decide) (by decide) (by decide)

/-- C8: calling `setFilters` with a structurally equal value (same
`startYear`, `endYear`, `language`) is a complete no-op: the state —
filters, SeenSet, Queue, in-flight set, Stats — is returned unchanged, so
nothing is cancelled and no fill cycle runs. -/
theorem setFilters_same_noop (st : QState) (f : PrefetchFilters)
    (h : sameFilters st.filters f = true) :
    setFiltersFn f st = st := by
  rw [setFiltersFn, if_pos (by simp [h])]

/-- C8 (witness): re-setting the empty filters of `wState`. -/
theorem setFilters_same_noop_witness :
    sameFilters wState.filters ({} : PrefetchFilters) = true ∧
    setFiltersFn ({} : PrefetchFilters) wState = wState :=
  ⟨by decide, setFilters_same_noop wState ({} : PrefetchFilters) (by decide)⟩

/-- C9: every launched `fillOne` invocation makes at most 6 Supplier calls
(the attempt counter, bumped once per call, never exceeds 6) and pushes at
most one item, settling immediately once it has pushed; duplicates count
against the same 6-call budget: in the concrete run `c9s0 → c9sF` the
Supplier answers all six calls with an already-seen id and the attempt
settles after exactly 6 calls with the queue untouched and nothing
recorded as queued. -/
theorem fillOne_attempt_bounds :
    (∀ (s c : Nat) (st : QState), Reached (initState s c) st →
      ∀ t ∈ st.tasks,
        t.attempt ≤ 6 ∧ t.pushes ≤ 1 ∧ (1 ≤ t.pushes → t.phase = .settled)) ∧
    (Reached c9s0 c9sF ∧
      c9sF.tasks = [(⟨6, .settled, false, false, 0⟩ : TaskT)] ∧
      c9sF.queue = c9s0.queue ∧ c9sF.stats.queued = c9s0.stats.queued) := by
  constructor
  · intro s c st h
    exact (reached_inv h).2.2.2.2
  · refine ⟨?_, by decide, by decide, by decide⟩
    refine Relation.ReflTransGen.tail ?_
      ⟨.tau, Step.loopExit _ 0 (c9Task 6 .checking) (by decide) rfl (by decide)⟩
    refine Relation.ReflTransGen.tail ?_
      ⟨.tau, Step.supplierDup _ 0 (c9Task 6 .awaiting) 7 (by decide) rfl rfl (by decide)⟩
    refine Relation.ReflTransGen.tail ?_
      ⟨.tau, Step.loopEnter _ 0 (c9Task 5 .checking) (by decide) rfl (by decide) (by decide)⟩
    refine Relation.ReflTransGen.tail ?_
      ⟨.tau, Step.supplierDup _ 0 (c9Task 5 .awaiting) 7 (by decide) rfl rfl (by decide)⟩
    refine Relation.ReflTransGen.tail ?_
      ⟨.tau, Step.loopEnter _ 0 (c9Task 4 .checking) (by decide) rfl (by decide) (by decide)⟩
    refine Relation.ReflTransGen.tail ?_
      ⟨.tau, Step.supplierDup _ 0 (c9Task 4 .awaiting) 7 (by decide) rfl rfl (by decide)⟩
    refine Relation.ReflTransGen.tail ?_
      ⟨.tau, Step.loopEnter _ 0 (c9Task 3 .checking) (by decide) rfl (by decide) (by decide)⟩
    refine Relation.ReflTransGen.tail ?_
      ⟨.tau, Step.supplierDup _ 0 (c9Task 3 .awaiting) 7 (by decide) rfl rfl (by decide)⟩
    refine Relation.ReflTransGen.tail ?_
      ⟨.tau, Step.loopEnter _ 0 (c9Task 2 .checking) (by decide) rfl (by decide) (by decide)⟩
    refine Relation.ReflTransGen.tail ?_
      ⟨.tau, Step.supplierDup _ 0 (c9Task 2 .awaiting) 7 (by decide) rfl rfl (by decide)⟩
    refine Relation.ReflTransGen.tail ?_
      ⟨.tau, Step.loopEnter _ 0 (c9Task 1 .checking) (by decide) rfl (by decide) (by decide)⟩
    exact Relation.ReflTransGen.single
      ⟨.tau, Step.supplierDup c9s0 0 (c9Task 1 .awaiting) 7 (by decide) rfl rfl (by decide)⟩

/-- C9 (witness): the per-task bounds instantiated at a task of a state
one `fill()` step from a fresh instance. -/
theorem fillOne_attempt_bounds_witness :
    spawnedTask.attempt ≤ 6 ∧ spawnedTask.pushes ≤ 1 ∧
      (1 ≤ spawnedTask.pushes → spawnedTask.phase = Phase.settled) :=
  fillOne_attempt_bounds.1 3 2 (fillStep (initState 3 2))
    (Relation.ReflTransGen.single ⟨Label.tau, Step.fillCall (initState 3 2)⟩)
    spawnedTask (by decide)

/-- C10: `cancel(clearQueue)` leaves the SeenSet, the Filters and all five
Stats counters unchanged; with `clearQueue = false` the queue is also
unchanged; the in-flight set is emptied in every case; and because the
dedup history survives, no step from the post-cancel state can push an
identifier that was already seen before the cancel. -/
theorem cancel_frame (clearQueue : Bool) (st : QState) :
    (cancelFn clearQueue st).seenIds = st.seenIds ∧
    (cancelFn clearQueue st).filters = st.filters ∧
    (cancelFn clearQueue st).stats = st.stats ∧
    (clearQueue = false → (cancelFn clearQueue st).queue = st.queue) ∧
    inFlightCount (cancelFn clearQueue st) = 0 ∧
    (∀ (l : Label) (st' : QState), Step (cancelFn clearQueue st) l st' →
      ∀ id ∈ st.seenIds, l ≠ Label.pushL id) := by
  refine ⟨rfl, rfl, rfl, ?_, inFlightCount_cancelFn _ _, ?_⟩
  · intro hb
    rw [hb]
    rfl
  · intro l st' hstep id hid heq
    rw [heq] at hstep
    exact (step_push hstep).1 hid

/-- C10 (witness) at `wState` with `clearQueue = false`. -/
theorem cancel_frame_witness :
    (cancelFn false wState).seenIds = wState.seenIds ∧
    (cancelFn false wState).queue = wState.queue ∧
    inFlightCount (cancelFn false wState) = 0 :=
  ⟨(cancel_frame false wState).1,
    (cancel_frame false wState).2.2.2.1 rfl,
    (cancel_frame false wState).2.2.2.2.1⟩
